import Mathlib

/-
  Verification of the 2023-2-level-ctlr repository against its specification.

  The development shallowly embeds the two Python modules under verification:
  * lab_5_scrapper/scrapper.py  (configuration validation, crawler, HTML parsing)
  * lab_6_pipeline/pipeline.py  (corpus manager, POS-frequency pipeline)

  Pure Python functions become Lean functions; raised exceptions become
  `Except` error values; JSON-typed configuration fields become a small
  `JsonVal` universe mirroring Python's runtime `isinstance` checks
  (in particular Python's `bool` is a subtype of `int`, which the embedding
  reproduces in `pyIntVal`).
-/

namespace Ctlr

/- ===================================================================
   Lab 5, part 1: Config._validate_config_content (scrapper.py 107-138)
   =================================================================== -/

/-- JSON-like runtime values a parsed configuration field can hold. -/
inductive JsonVal where
  | jnull
  | jbool (b : Bool)
  | jint (n : Int)
  | jstr (s : String)
  | jlist (xs : List JsonVal)
  | jdict (kvs : List (String × JsonVal))

/-- ConfigDTO (core_utils.config_dto): the raw JSON fields, stored untyped,
exactly as `_extract_config_content` builds them. -/
structure ConfigDTO where
  seed_urls : JsonVal
  total_articles : JsonVal
  headers : JsonVal
  encoding : JsonVal
  timeout : JsonVal
  should_verify_certificate : JsonVal
  headless_mode : JsonVal

/-- The exception kinds `_validate_config_content` can raise.  `typeError`
models Python's built-in TypeError, raised by `re.match` on a non-string. -/
inductive ConfigError where
  | typeError
  | incorrectSeedURL
  | incorrectNumberOfArticles
  | numberOfArticlesOutOfRange
  | incorrectHeaders
  | incorrectEncoding
  | incorrectTimeout
  | incorrectVerify
  deriving DecidableEq

/-- Boolean test that `p` is a prefix of `s` (over explicit char lists). -/
def strHasPre : List Char → List Char → Bool
  | [], _ => true
  | _ :: _, [] => false
  | p :: ps, c :: cs => p == c && strHasPre ps cs

/-- The four literal prefixes accepted by the anchored regular expression
`https?://(www)?\.sbras\.info/news+`: protocol `http` with optional `s`,
optional `www`, a mandatory dot, then `sbras.info/new` followed by at least
one `s` (a prefix match, so any suffix may follow). -/
def seedPatternAlts : List (List Char) :=
  [("http://.sbras.info/news").data, ("http://www.sbras.info/news").data,
   ("https://.sbras.info/news").data, ("https://www.sbras.info/news").data]

/-- `re.match(r"https?://(www)?\.sbras\.info/news+", s)` succeeds. -/
def matchesSeedPattern (s : String) : Bool :=
  seedPatternAlts.any (fun p => strHasPre p s.data)

/-- The generator `all(re.match(pattern, u) for u in urls)`: scans left to
right; a non-string element raises TypeError (from `re.match`) before later
elements are looked at; a non-matching string makes `all` return `false`. -/
def seedScan : List JsonVal → Except ConfigError Bool
  | [] => .ok true
  | .jstr s :: rest => if matchesSeedPattern s then seedScan rest else .ok false
  | _ :: _ => .error .typeError

/-- `if not (isinstance(seed_urls, list) and all(...)): raise IncorrectSeedURLError`. -/
def checkSeeds : JsonVal → Except ConfigError Unit
  | .jlist l =>
      match seedScan l with
      | .error e => .error e
      | .ok true => .ok ()
      | .ok false => .error .incorrectSeedURL
  | _ => .error .incorrectSeedURL

/-- Python `isinstance(v, int)` together with the integer value of `v`:
booleans are ints in Python (`True == 1`, `False == 0`). -/
def pyIntVal : JsonVal → Option Int
  | .jint n => some n
  | .jbool b => some (if b then 1 else 0)
  | _ => none

/-- `if not isinstance(num, int) or num <= 0: raise IncorrectNumberOfArticlesError`
then `if num > 150: raise NumberOfArticlesOutOfRangeError`. -/
def checkNum (v : JsonVal) : Except ConfigError Unit :=
  match pyIntVal v with
  | none => .error .incorrectNumberOfArticles
  | some n =>
      if n ≤ 0 then .error .incorrectNumberOfArticles
      else if n > 150 then .error .numberOfArticlesOutOfRange
      else .ok ()

def isDictVal : JsonVal → Bool
  | .jdict _ => true
  | _ => false

def isStrVal : JsonVal → Bool
  | .jstr _ => true
  | _ => false

def isBoolVal : JsonVal → Bool
  | .jbool _ => true
  | _ => false

/-- `if not isinstance(config.headers, dict): raise IncorrectHeadersError`. -/
def checkHeaders (v : JsonVal) : Except ConfigError Unit :=
  if isDictVal v then .ok () else .error .incorrectHeaders

/-- `if not isinstance(config.encoding, str): raise IncorrectEncodingError`. -/
def checkEncoding (v : JsonVal) : Except ConfigError Unit :=
  if isStrVal v then .ok () else .error .incorrectEncoding

/-- `if not isinstance(verify, bool) or not isinstance(headless, bool): raise IncorrectVerifyError`. -/
def checkVerify (v h : JsonVal) : Except ConfigError Unit :=
  if !isBoolVal v || !isBoolVal h then .error .incorrectVerify else .ok ()

/-- `if not isinstance(timeout, int) or timeout > 60 or timeout < 0: raise IncorrectTimeoutError`. -/
def checkTimeout (v : JsonVal) : Except ConfigError Unit :=
  match pyIntVal v with
  | none => .error .incorrectTimeout
  | some t => if t > 60 || t < 0 then .error .incorrectTimeout else .ok ()

/-- `Config._validate_config_content`, with the checks in source order:
seed urls, article count (positivity then cap), headers, encoding,
verify/headless flags, and timeout last. -/
def validate_config_content (c : ConfigDTO) : Except ConfigError Unit :=
  match checkSeeds c.seed_urls with
  | .error e => .error e
  | .ok _ =>
  match checkNum c.total_articles with
  | .error e => .error e
  | .ok _ =>
  match checkHeaders c.headers with
  | .error e => .error e
  | .ok _ =>
  match checkEncoding c.encoding with
  | .error e => .error e
  | .ok _ =>
  match checkVerify c.should_verify_certificate c.headless_mode with
  | .error e => .error e
  | .ok _ => checkTimeout c.timeout

/- Field-validity predicates, read off from the accepting branches of the
corresponding checks. -/

def seedElemOkB : JsonVal → Bool
  | .jstr s => matchesSeedPattern s
  | _ => false

def seedsValidB : JsonVal → Bool
  | .jlist l => l.all seedElemOkB
  | _ => false

def countValidB (v : JsonVal) : Bool :=
  match pyIntVal v with
  | some n => decide (0 < n ∧ n ≤ 150)
  | none => false

def timeoutValidB (v : JsonVal) : Bool :=
  match pyIntVal v with
  | some t => decide (0 ≤ t ∧ t ≤ 60)
  | none => false

/-- All seven fields are valid. -/
def configValidB (c : ConfigDTO) : Bool :=
  seedsValidB c.seed_urls && countValidB c.total_articles
    && isDictVal c.headers && isStrVal c.encoding
    && isBoolVal c.should_verify_certificate && isBoolVal c.headless_mode
    && timeoutValidB c.timeout

/-- All fields except `seed_urls` are valid. -/
def validExceptSeeds (c : ConfigDTO) : Bool :=
  countValidB c.total_articles && isDictVal c.headers && isStrVal c.encoding
    && isBoolVal c.should_verify_certificate && isBoolVal c.headless_mode
    && timeoutValidB c.timeout

/-- All fields except `total_articles` are valid. -/
def validExceptCount (c : ConfigDTO) : Bool :=
  seedsValidB c.seed_urls && isDictVal c.headers && isStrVal c.encoding
    && isBoolVal c.should_verify_certificate && isBoolVal c.headless_mode
    && timeoutValidB c.timeout

/-- All fields except `headers` are valid. -/
def validExceptHeaders (c : ConfigDTO) : Bool :=
  seedsValidB c.seed_urls && countValidB c.total_articles && isStrVal c.encoding
    && isBoolVal c.should_verify_certificate && isBoolVal c.headless_mode
    && timeoutValidB c.timeout

/-- All fields except `encoding` are valid. -/
def validExceptEncoding (c : ConfigDTO) : Bool :=
  seedsValidB c.seed_urls && countValidB c.total_articles && isDictVal c.headers
    && isBoolVal c.should_verify_certificate && isBoolVal c.headless_mode
    && timeoutValidB c.timeout

/-- All fields except the two boolean flags are valid. -/
def validExceptVerify (c : ConfigDTO) : Bool :=
  seedsValidB c.seed_urls && countValidB c.total_articles && isDictVal c.headers
    && isStrVal c.encoding && timeoutValidB c.timeout

/-- All fields except `timeout` are valid. -/
def validExceptTimeout (c : ConfigDTO) : Bool :=
  seedsValidB c.seed_urls && countValidB c.total_articles && isDictVal c.headers
    && isStrVal c.encoding && isBoolVal c.should_verify_certificate
    && isBoolVal c.headless_mode

/- Per-check lemmas. -/

lemma seedScan_of_all_ok {l : List JsonVal} (h : l.all seedElemOkB = true) :
    seedScan l = .ok true := by
  induction l with
  | nil => rfl
  | cons x xs ih =>
      simp only [List.all_cons, Bool.and_eq_true] at h
      obtain ⟨hx, hxs⟩ := h
      cases x with
      | jstr s =>
          simp only [seedElemOkB] at hx
          simp [seedScan, hx, ih hxs]
      | jnull => simp [seedElemOkB] at hx
      | jbool b => simp [seedElemOkB] at hx
      | jint n => simp [seedElemOkB] at hx
      | jlist ys => simp [seedElemOkB] at hx
      | jdict kvs => simp [seedElemOkB] at hx

lemma checkSeeds_of_valid {v : JsonVal} (h : seedsValidB v = true) :
    checkSeeds v = .ok () := by
  cases v with
  | jlist l =>
      simp only [seedsValidB] at h
      simp [checkSeeds, seedScan_of_all_ok h]
  | jnull => simp [seedsValidB] at h
  | jbool b => simp [seedsValidB] at h
  | jint n => simp [seedsValidB] at h
  | jstr s => simp [seedsValidB] at h
  | jdict kvs => simp [seedsValidB] at h

lemma checkNum_of_valid {v : JsonVal} (h : countValidB v = true) :
    checkNum v = .ok () := by
  unfold countValidB at h
  cases hp : pyIntVal v with
  | none => rw [hp] at h; exact absurd h (by simp)
  | some n =>
      rw [hp] at h
      have hn : 0 < n ∧ n ≤ 150 := of_decide_eq_true h
      have h1 : ¬ n ≤ 0 := by omega
      have h2 : ¬ n > 150 := by omega
      simp [checkNum, hp, h1, h2]

lemma checkHeaders_of_valid {v : JsonVal} (h : isDictVal v = true) :
    checkHeaders v = .ok () := by
  simp [checkHeaders, h]

lemma checkEncoding_of_valid {v : JsonVal} (h : isStrVal v = true) :
    checkEncoding v = .ok () := by
  simp [checkEncoding, h]

lemma checkVerify_of_valid {v h : JsonVal} (hv : isBoolVal v = true)
    (hh : isBoolVal h = true) : checkVerify v h = .ok () := by
  simp [checkVerify, hv, hh]

lemma checkTimeout_of_valid {v : JsonVal} (h : timeoutValidB v = true) :
    checkTimeout v = .ok () := by
  unfold timeoutValidB at h
  cases hp : pyIntVal v with
  | none => rw [hp] at h; exact absurd h (by simp)
  | some t =>
      rw [hp] at h
      have ht : 0 ≤ t ∧ t ≤ 60 := of_decide_eq_true h
      have h1 : ¬ t > 60 := by omega
      have h2 : ¬ t < 0 := by omega
      simp [checkTimeout, hp, h1, h2]

lemma checkNum_of_invalid_low {v : JsonVal}
    (h : pyIntVal v = none ∨ ∃ n, pyIntVal v = some n ∧ n ≤ 0) :
    checkNum v = .error .incorrectNumberOfArticles := by
  rcases h with h | ⟨n, hn, hle⟩
  · simp [checkNum, h]
  · simp [checkNum, hn, hle]

lemma checkNum_of_invalid_high {v : JsonVal} {n : Int}
    (hn : pyIntVal v = some n) (hgt : 150 < n) :
    checkNum v = .error .numberOfArticlesOutOfRange := by
  have h1 : ¬ n ≤ 0 := by omega
  simp [checkNum, hn, h1, hgt]

lemma checkTimeout_of_invalid {v : JsonVal} (h : timeoutValidB v = false) :
    checkTimeout v = .error .incorrectTimeout := by
  unfold timeoutValidB at h
  cases hp : pyIntVal v with
  | none => simp [checkTimeout, hp]
  | some t =>
      rw [hp] at h
      have h2 : decide (0 ≤ t ∧ t ≤ 60) = false := h
      have ht : ¬(0 ≤ t ∧ t ≤ 60) := of_decide_eq_false h2
      rcases (by omega : t > 60 ∨ t < 0) with hgt | hlt
      · simp [checkTimeout, hp, hgt]
      · simp [checkTimeout, hp, hlt]

lemma seedScan_ok_true_iff (l : List JsonVal) :
    seedScan l = .ok true ↔ l.all seedElemOkB = true := by
  induction l with
  | nil => simp [seedScan]
  | cons x xs ih =>
      cases x with
      | jstr s =>
          by_cases hm : matchesSeedPattern s = true
          · simp [seedScan, hm, ih, seedElemOkB]
          · simp only [Bool.not_eq_true] at hm
            simp [seedScan, hm, seedElemOkB]
      | jnull => simp [seedScan, seedElemOkB]
      | jbool b => simp [seedScan, seedElemOkB]
      | jint n => simp [seedScan, seedElemOkB]
      | jlist ys => simp [seedScan, seedElemOkB]
      | jdict kvs => simp [seedScan, seedElemOkB]

lemma seedScan_error_eq :
    ∀ (l : List JsonVal) (e : ConfigError), seedScan l = .error e → e = .typeError := by
  intro l
  induction l with
  | nil => intro e h; simp [seedScan] at h
  | cons x xs ih =>
      intro e h
      cases x with
      | jstr s =>
          by_cases hm : matchesSeedPattern s = true
          · rw [seedScan, if_pos hm] at h
            exact ih e h
          · simp only [Bool.not_eq_true] at hm
            rw [seedScan, hm] at h
            simp at h
      | jnull => simp [seedScan] at h; exact h.symm
      | jbool b => simp [seedScan] at h; exact h.symm
      | jint n => simp [seedScan] at h; exact h.symm
      | jlist ys => simp [seedScan] at h; exact h.symm
      | jdict kvs => simp [seedScan] at h; exact h.symm

/-- An invalid seeds field raises IncorrectSeedURLError or, when a
non-string element is reached by `re.match`, TypeError. -/
lemma checkSeeds_invalid {v : JsonVal} (h : seedsValidB v = false) :
    checkSeeds v = .error .incorrectSeedURL ∨ checkSeeds v = .error .typeError := by
  cases v with
  | jlist l =>
      simp only [seedsValidB] at h
      cases hs : seedScan l with
      | error e =>
          right
          rw [seedScan_error_eq l e hs] at hs
          simp [checkSeeds, hs]
      | ok b =>
          cases b with
          | true =>
              exact absurd ((seedScan_ok_true_iff l).mp hs)
                (by rw [h]; exact Bool.false_ne_true)
          | false =>
              left
              simp [checkSeeds, hs]
  | jnull => left; rfl
  | jbool b => left; rfl
  | jint n => left; rfl
  | jstr s => left; rfl
  | jdict kvs => left; rfl

/-- The first element of the seed list that the generator
`all(re.match(pattern, u) for u in urls)` rejects: every element before it
is a string matching the pattern. -/
def firstBadSeed : List JsonVal → Option JsonVal
  | [] => none
  | v :: vs => if seedElemOkB v then firstBadSeed vs else some v

lemma firstBadSeed_mem :
    ∀ (l : List JsonVal) (v : JsonVal), firstBadSeed l = some v → v ∈ l := by
  intro l
  induction l with
  | nil => intro v h; simp [firstBadSeed] at h
  | cons x xs ih =>
      intro v h
      by_cases hok : seedElemOkB x = true
      · rw [firstBadSeed, if_pos hok] at h
        exact List.mem_cons_of_mem x (ih v h)
      · rw [firstBadSeed, if_neg hok] at h
        cases h
        exact List.mem_cons_self x xs

lemma firstBadSeed_of_not_all :
    ∀ l : List JsonVal, l.all seedElemOkB = false →
      ∃ v, firstBadSeed l = some v := by
  intro l
  induction l with
  | nil => intro h; simp at h
  | cons x xs ih =>
      intro h
      by_cases hok : seedElemOkB x = true
      · rw [List.all_cons, hok, Bool.true_and] at h
        obtain ⟨v, hv⟩ := ih h
        exact ⟨v, by rw [firstBadSeed, if_pos hok]; exact hv⟩
      · exact ⟨x, by rw [firstBadSeed, if_neg hok]⟩

/-- The scan stops at the first offending element: a non-matching string
makes `all` return `false`, a non-string raises TypeError. -/
lemma seedScan_firstBad :
    ∀ (l : List JsonVal) (v : JsonVal), firstBadSeed l = some v →
      seedScan l =
        (if isStrVal v = true then Except.ok false
         else Except.error ConfigError.typeError) := by
  intro l
  induction l with
  | nil => intro v h; simp [firstBadSeed] at h
  | cons x xs ih =>
      intro v h
      by_cases hok : seedElemOkB x = true
      · rw [firstBadSeed, if_pos hok] at h
        cases x with
        | jstr s =>
            have hm : matchesSeedPattern s = true := by
              simpa [seedElemOkB] using hok
            rw [seedScan, if_pos hm]
            exact ih v h
        | jnull => simp [seedElemOkB] at hok
        | jbool b => simp [seedElemOkB] at hok
        | jint n => simp [seedElemOkB] at hok
        | jlist ys => simp [seedElemOkB] at hok
        | jdict kvs => simp [seedElemOkB] at hok
      · rw [firstBadSeed, if_neg hok] at h
        cases h
        simp only [Bool.not_eq_true] at hok
        cases x with
        | jstr s =>
            have hm : matchesSeedPattern s = false := by
              simpa [seedElemOkB] using hok
            rw [seedScan, if_neg (by simp [hm])]
            simp [isStrVal]
        | jnull => simp [seedScan, isStrVal]
        | jbool b => simp [seedScan, isStrVal]
        | jint n => simp [seedScan, isStrVal]
        | jlist ys => simp [seedScan, isStrVal]
        | jdict kvs => simp [seedScan, isStrVal]

lemma checkSeeds_firstBad_str {l : List JsonVal} {v : JsonVal}
    (h : firstBadSeed l = some v) (hs : isStrVal v = true) :
    checkSeeds (.jlist l) = .error .incorrectSeedURL := by
  have hscan := seedScan_firstBad l v h
  rw [hs] at hscan
  simp only [if_pos] at hscan
  simp [checkSeeds, hscan]

lemma checkSeeds_firstBad_nonstr {l : List JsonVal} {v : JsonVal}
    (h : firstBadSeed l = some v) (hs : isStrVal v = false) :
    checkSeeds (.jlist l) = .error .typeError := by
  have hscan := seedScan_firstBad l v h
  rw [hs] at hscan
  simp only [Bool.false_eq_true, if_false] at hscan
  simp [checkSeeds, hscan]

lemma validate_of_seeds_error {c : ConfigDTO} {e : ConfigError}
    (h : checkSeeds c.seed_urls = .error e) :
    validate_config_content c = .error e := by
  unfold validate_config_content
  rw [h]

lemma validate_of_num_error {c : ConfigDTO} {e : ConfigError}
    (hs : seedsValidB c.seed_urls = true)
    (h : checkNum c.total_articles = .error e) :
    validate_config_content c = .error e := by
  unfold validate_config_content
  rw [checkSeeds_of_valid hs, h]

lemma validate_of_headers_error {c : ConfigDTO} {e : ConfigError}
    (hs : seedsValidB c.seed_urls = true)
    (hn : countValidB c.total_articles = true)
    (h : checkHeaders c.headers = .error e) :
    validate_config_content c = .error e := by
  unfold validate_config_content
  rw [checkSeeds_of_valid hs, checkNum_of_valid hn, h]

lemma validate_of_encoding_error {c : ConfigDTO} {e : ConfigError}
    (hs : seedsValidB c.seed_urls = true)
    (hn : countValidB c.total_articles = true)
    (hh : isDictVal c.headers = true)
    (h : checkEncoding c.encoding = .error e) :
    validate_config_content c = .error e := by
  unfold validate_config_content
  rw [checkSeeds_of_valid hs, checkNum_of_valid hn, checkHeaders_of_valid hh, h]

lemma validate_of_verify_error {c : ConfigDTO} {e : ConfigError}
    (hs : seedsValidB c.seed_urls = true)
    (hn : countValidB c.total_articles = true)
    (hh : isDictVal c.headers = true)
    (he : isStrVal c.encoding = true)
    (h : checkVerify c.should_verify_certificate c.headless_mode = .error e) :
    validate_config_content c = .error e := by
  unfold validate_config_content
  rw [checkSeeds_of_valid hs, checkNum_of_valid hn, checkHeaders_of_valid hh,
    checkEncoding_of_valid he, h]

/-- Unfolding helper: with valid seeds, count, headers, encoding and flags,
`validate_config_content` reduces to the timeout check. -/
lemma validate_reaches_timeout {c : ConfigDTO}
    (hs : seedsValidB c.seed_urls = true)
    (hn : countValidB c.total_articles = true)
    (hh : isDictVal c.headers = true)
    (he : isStrVal c.encoding = true)
    (hv : isBoolVal c.should_verify_certificate = true)
    (hm : isBoolVal c.headless_mode = true) :
    validate_config_content c = checkTimeout c.timeout := by
  unfold validate_config_content
  rw [checkSeeds_of_valid hs, checkNum_of_valid hn, checkHeaders_of_valid hh,
    checkEncoding_of_valid he, checkVerify_of_valid hv hm]

/- ===================================================================
   Lab 5, part 2: Crawler (scrapper.py 225-294) and
   CrawlerRecursive (scrapper.py 298-360)
   =================================================================== -/

/-- Membership test on string lists (Python `x in self.urls`). -/
def hasStr : List String → String → Bool
  | [], _ => false
  | y :: ys, x => x == y || hasStr ys x

/-- One `<a hreflang='ru'>` element of a listing page: whether its stripped
strings contain the marker text checked by `_extract_url`, and its `href`. -/
structure PageLink where
  marked : Bool
  href : String

def crawlerBaseUrl : String := "https://www.sbras.info/news"

/-- `self.base_url + link.get('href')[len('/news'):]`. -/
def linkFullUrl (l : PageLink) : String := crawlerBaseUrl ++ (l.href.drop 5)

/-- `Crawler._extract_url`: first marked link whose full url is not yet in
`urls`; the for-else sets the result to the empty string (here `none`) when
the loop finishes without a break. -/
def extract_url (urls : List String) : List PageLink → Option String
  | [] => none
  | l :: ls =>
      if l.marked && !(hasStr urls (linkFullUrl l)) then some (linkFullUrl l)
      else extract_url urls ls

/-- Number of page links still extractable against `urls`; the termination
measure for the inner while loop of `find_articles`. -/
def countFresh (urls : List String) (links : List PageLink) : Nat :=
  (links.filter (fun l => l.marked && !(hasStr urls (linkFullUrl l)))).length

lemma hasStr_append (ys : List String) (x u : String) :
    hasStr (ys ++ [u]) x = (hasStr ys x || x == u) := by
  induction ys with
  | nil => simp [hasStr]
  | cons y ys ih => simp [hasStr, ih, Bool.or_assoc]

lemma hasStr_false_not_mem {ys : List String} {x : String}
    (h : hasStr ys x = false) : x ∉ ys := by
  induction ys with
  | nil => simp
  | cons y ys ih =>
      simp only [hasStr, Bool.or_eq_false_iff, beq_eq_false_iff_ne] at h
      simp [h.1, ih h.2]

lemma extract_url_spec {urls : List String} {links : List PageLink} {u : String}
    (h : extract_url urls links = some u) :
    ∃ l ∈ links, l.marked = true ∧ u = linkFullUrl l ∧ hasStr urls u = false := by
  induction links with
  | nil => simp [extract_url] at h
  | cons l ls ih =>
      by_cases hc : (l.marked && !(hasStr urls (linkFullUrl l))) = true
      · rw [extract_url, if_pos hc] at h
        obtain ⟨hm, hf⟩ := Bool.and_eq_true_iff.mp hc
        refine ⟨l, by simp, hm, by simpa using h.symm, ?_⟩
        cases h
        simpa using hf
      · rw [extract_url, if_neg hc] at h
        obtain ⟨l', hl', hprops⟩ := ih h
        exact ⟨l', by simp [hl'], hprops⟩

lemma filter_length_mono {α : Type} (l : List α) (p q : α → Bool)
    (h : ∀ x, q x = true → p x = true) :
    (l.filter q).length ≤ (l.filter p).length := by
  induction l with
  | nil => simp
  | cons a as ih =>
      by_cases hq : q a = true
      · simp [List.filter, hq, h a hq, Nat.succ_le_succ ih]
      · rw [List.filter_cons]
        simp only [Bool.not_eq_true] at hq
        rw [hq]
        by_cases hp : p a = true
        · simp only [List.filter_cons, hp, if_pos]
          exact Nat.le_succ_of_le ih
        · simp only [Bool.not_eq_true] at hp
          simp only [List.filter_cons, hp]
          simpa using ih

lemma filter_length_lt {α : Type} {l : List α} {x : α} (p q : α → Bool)
    (hmem : x ∈ l) (hp : p x = true) (hq : q x = false)
    (himp : ∀ y, q y = true → p y = true) :
    (l.filter q).length < (l.filter p).length := by
  induction l with
  | nil => simp at hmem
  | cons a as ih =>
      rcases List.mem_cons.mp hmem with heq | hmem'
      · subst heq
        simp only [List.filter_cons, hp, hq, if_pos, Bool.false_eq_true,
          if_false, List.length_cons]
        exact Nat.lt_succ_of_le (filter_length_mono as p q himp)
      · by_cases hqa : q a = true
        · simp only [List.filter_cons, hqa, himp a hqa, if_pos, List.length_cons]
          exact Nat.succ_lt_succ (ih hmem')
        · simp only [Bool.not_eq_true] at hqa
          by_cases hpa : p a = true
          · simp only [List.filter_cons, hqa, hpa, if_pos, Bool.false_eq_true,
              if_false, List.length_cons]
            exact Nat.lt_succ_of_lt (ih hmem')
          · simp only [Bool.not_eq_true] at hpa
            simp only [List.filter_cons, hqa, hpa, Bool.false_eq_true, if_false]
            exact ih hmem'

lemma countFresh_decreases {urls : List String} {links : List PageLink} {u : String}
    (h : extract_url urls links = some u) :
    countFresh (urls ++ [u]) links < countFresh urls links := by
  obtain ⟨l, hmem, hm, hu, hfresh⟩ := extract_url_spec h
  unfold countFresh
  have hmono : ∀ x : PageLink,
      (x.marked && !(hasStr (urls ++ [u]) (linkFullUrl x))) = true →
      (x.marked && !(hasStr urls (linkFullUrl x))) = true := by
    intro x hx
    obtain ⟨hxm, hxf⟩ := Bool.and_eq_true_iff.mp hx
    rw [hasStr_append] at hxf
    simp only [Bool.not_eq_true', Bool.or_eq_false_iff] at hxf
    simp [hxm, hxf.1]
  have hp : (fun x : PageLink => x.marked && !(hasStr urls (linkFullUrl x))) l = true := by
    simp only [hm, ← hu, hfresh]
    rfl
  have hq : (fun x : PageLink => x.marked && !(hasStr (urls ++ [u]) (linkFullUrl x))) l = false := by
    simp only [← hu, hasStr_append, hfresh]
    simp
  exact filter_length_lt _ _ hmem hp hq hmono

/-- The inner `while extracted_url:` loop of `Crawler.find_articles`:
stop once the target count is reached, otherwise append the freshly
extracted url and extract again. -/
def crawlLoop (target : Nat) (links : List PageLink) (urls : List String) :
    List String :=
  match h : extract_url urls links with
  | none => urls
  | some u =>
      if urls.length = target then urls
      else crawlLoop target links (urls ++ [u])
termination_by countFresh urls links
decreasing_by exact countFresh_decreases h

/-- Result of a crawl: the accumulated urls and the number of fetch attempts
(`make_request` calls) performed. -/
structure CrawlResult where
  urls : List String
  fetches : Nat
  deriving DecidableEq

/-- `Crawler.find_articles`, one seed at a time.  `pages` is the fixed input
of fetched pages: `none` models a non-2xx response (`response.ok` false). -/
def find_articles_from (target : Nat) (pages : String → Option (List PageLink)) :
    List String → List String → Nat → CrawlResult
  | [], urls, f => ⟨urls, f⟩
  | seed :: rest, urls, f =>
      match pages seed with
      | none => find_articles_from target pages rest urls (f + 1)
      | some links =>
          let urls2 := crawlLoop target links urls
          if urls2.length = target then ⟨urls2, f + 1⟩
          else find_articles_from target pages rest urls2 (f + 1)

/-- `Crawler.find_articles` started from the constructor state
(`self.urls = []`). -/
def find_articles (target : Nat) (pages : String → Option (List PageLink))
    (seeds : List String) : CrawlResult :=
  find_articles_from target pages seeds [] 0

lemma nodup_append_single {l : List String} {u : String}
    (hnd : l.Nodup) (hu : u ∉ l) : (l ++ [u]).Nodup := by
  rw [← List.concat_eq_append]
  exact List.Nodup.concat hu hnd

/-- The inner loop preserves the no-duplicates and length-cap invariant. -/
lemma crawlLoop_inv (target : Nat) (links : List PageLink) :
    ∀ n urls, countFresh urls links ≤ n → urls.Nodup → urls.length ≤ target →
      (crawlLoop target links urls).Nodup ∧
        (crawlLoop target links urls).length ≤ target := by
  intro n
  induction n with
  | zero =>
      intro urls hcf hnd hlen
      rw [crawlLoop.eq_def]
      split
      · exact ⟨hnd, hlen⟩
      · next u heq =>
          exact absurd (Nat.lt_of_lt_of_le (countFresh_decreases heq) hcf)
            (Nat.not_lt_zero _)
  | succ n ih =>
      intro urls hcf hnd hlen
      rw [crawlLoop.eq_def]
      split
      · exact ⟨hnd, hlen⟩
      · next u heq =>
          by_cases htar : urls.length = target
          · rw [if_pos htar]
            exact ⟨hnd, hlen⟩
          · rw [if_neg htar]
            obtain ⟨l, _, _, hu, hfresh⟩ := extract_url_spec heq
            have hnotmem : u ∉ urls := hasStr_false_not_mem hfresh
            have hle : countFresh (urls ++ [u]) links ≤ n :=
              Nat.lt_succ_iff.mp (Nat.lt_of_lt_of_le (countFresh_decreases heq) hcf)
            exact ih (urls ++ [u]) hle (nodup_append_single hnd hnotmem)
              (by simp; omega)

/-- A single append step of the inner loop: the extracted url is fresh, so
the invariant survives every append. -/
lemma crawl_append_step {target : Nat} {links : List PageLink}
    {urls : List String} {u : String}
    (hnd : urls.Nodup) (hlen : urls.length ≤ target)
    (hex : extract_url urls links = some u) (hne : urls.length ≠ target) :
    (urls ++ [u]).Nodup ∧ (urls ++ [u]).length ≤ target := by
  obtain ⟨l, _, _, hu, hfresh⟩ := extract_url_spec hex
  refine ⟨nodup_append_single hnd (hasStr_false_not_mem hfresh), ?_⟩
  simp
  omega

/-- `find_articles_from` preserves the invariant over the seed loop. -/
lemma find_articles_from_inv (target : Nat)
    (pages : String → Option (List PageLink)) :
    ∀ seeds urls f, urls.Nodup → urls.length ≤ target →
      (find_articles_from target pages seeds urls f).urls.Nodup ∧
        (find_articles_from target pages seeds urls f).urls.length ≤ target := by
  intro seeds
  induction seeds with
  | nil => intro urls f hnd hlen; exact ⟨hnd, hlen⟩
  | cons s rest ih =>
      intro urls f hnd hlen
      rw [find_articles_from]
      cases hp : pages s with
      | none => exact ih urls (f + 1) hnd hlen
      | some links =>
          have hloop := crawlLoop_inv target links (countFresh urls links) urls
            (Nat.le_refl _) hnd hlen
          by_cases htar : (crawlLoop target links urls).length = target
          · simp only [htar, if_pos]
            exact ⟨hloop.1, Nat.le_refl target⟩
          · simp only [htar, if_neg, if_false]
            exact ih _ (f + 1) hloop.1 hloop.2

/-- Each seed costs exactly one fetch attempt, so the number of fetch
attempts is bounded by the number of seed urls. -/
lemma find_articles_from_fetches (target : Nat)
    (pages : String → Option (List PageLink)) :
    ∀ seeds urls f,
      (find_articles_from target pages seeds urls f).fetches ≤ f + seeds.length := by
  intro seeds
  induction seeds with
  | nil => intro urls f; simp [find_articles_from]
  | cons s rest ih =>
      intro urls f
      rw [find_articles_from]
      cases hp : pages s with
      | none =>
          have := ih urls (f + 1)
          simp only [List.length_cons]
          omega
      | some links =>
          by_cases htar : (crawlLoop target links urls).length = target
          · simp only [htar, if_pos, List.length_cons]
            omega
          · simp only [htar, if_neg, if_false]
            have := ih (crawlLoop target links urls) (f + 1)
            simp only [List.length_cons]
            omega

/- CrawlerRecursive (scrapper.py 298-360).  Its `find_articles` calls itself
recursively with no depth bound, so the embedding is fuel-indexed: `fuelOut`
means the computation was still running after `fuel` nested calls. -/

/-- Substring test: `strHasPre sub` at some position of `s`. -/
def listHasSub (sub : List Char) : List Char → Bool
  | [] => sub.isEmpty
  | c :: cs => strHasPre sub (c :: cs) || listHasSub sub cs

/-- Python `sub in s` on strings. -/
def containsSub (s sub : String) : Bool := listHasSub sub.data s.data

/-- Insert into the Python-set model (a duplicate-free list). -/
def insertStr (x : String) (l : List String) : List String :=
  if hasStr l x then l else x :: l

/-- `set.update(s)` on a *string* argument iterates the characters of `s`,
adding each one-character string to the set — the source calls
`self.already_crawled.update(url)`, so full urls are never added, only
their characters. -/
def updateChars (s : String) (l : List String) : List String :=
  s.data.foldl (fun acc c => insertStr (String.mk [c]) acc) l

def recArticleTag : String := "ARTICLE URL: "

/-- `self.base_url[:-len('/news'):]`. -/
def siteRootUrl : String := "https://www.sbras.info"

/-- A fetched page as `CrawlerRecursive.find_articles` consumes it:
all `href`s (for the `all_urls` extension) and the `<a hreflang='ru'>`
links that `_extract_url` scans. -/
structure RecPage where
  hrefs : List String
  links : List PageLink

structure RecState where
  startUrl : String
  alreadyCrawled : List String
  urls : List String
  fetches : Nat
  deriving DecidableEq

inductive RecOutcome where
  | finished
  | interrupted
  | fuelOut
  deriving DecidableEq

/-- The inner `while extracted_url:` loop of `CrawlerRecursive.find_articles`.
Returns the new state, the `counter` of appended urls, and whether
`KeyboardInterrupt` was raised (target reached); `none` = out of fuel,
`fuel` bounding the number of loop iterations.  Note the first branch: when
the tagged url is already in `self.urls` the loop re-extracts from an
unchanged state, i.e. it spins forever in Python; here it burns fuel. -/
def recInner (target : Nat) (links : List PageLink) (fuel counter : Nat)
    (s : RecState) : Option (RecState × Nat × Bool) :=
  match extract_url s.urls links, fuel with
  | none, _ => some (s, counter, false)
  | some _, 0 => none
  | some u, fuel' + 1 =>
      if hasStr s.urls (recArticleTag ++ u) then
        recInner target links fuel' counter s
      else if s.urls.length = target then some (s, counter, true)
      else
        recInner target links fuel' (counter + 1)
          { s with urls := s.urls ++ [u],
                   alreadyCrawled :=
                     updateChars (recArticleTag ++ u) s.alreadyCrawled }
termination_by fuel

mutual

/-- `CrawlerRecursive.find_articles`: fetch `start_url`, build `all_urls`
from the page's hrefs, then loop over them (`recFor`). -/
def recFind (pages : String → Option RecPage) (target : Nat) :
    Nat → RecState → RecState × RecOutcome
  | 0, s => (s, .fuelOut)
  | fuel + 1, s =>
      let s1 : RecState := { s with fetches := s.fetches + 1 }
      match pages s1.startUrl with
      | none => (s1, .finished)
      | some page =>
          let allUrls := s1.startUrl ::
            ((page.hrefs.filter (fun h => !(containsSub h "http"))).map
              (fun h => siteRootUrl ++ h))
          recFor pages target fuel page.links allUrls s1
termination_by fuel s => (fuel, 0, 0)

/-- The `for url in all_urls:` loop body, including the unbounded
`self.find_articles()` recursion taken when `counter` stayed 0. -/
def recFor (pages : String → Option RecPage) (target : Nat) :
    Nat → List PageLink → List String → RecState → RecState × RecOutcome
  | _, _, [], s => (s, .finished)
  | fuel, links, url :: rest, s =>
      if hasStr s.alreadyCrawled url && !(url == crawlerBaseUrl) then
        recFor pages target fuel links rest s
      else
        let s1 : RecState :=
          if url == crawlerBaseUrl then s
          else { s with alreadyCrawled := updateChars url s.alreadyCrawled }
        let s2 : RecState := { s1 with startUrl := url }
        match recInner target links fuel 0 s2 with
        | none => (s2, .fuelOut)
        | some (s3, _, true) => (s3, .interrupted)
        | some (s3, counter, false) =>
            if counter > 0 then recFor pages target fuel links rest s3
            else
              match recFind pages target fuel s3 with
              | (s4, .finished) => recFor pages target fuel links rest s4
              | r => r
termination_by fuel links urlList s => (fuel, 1, urlList.length)

end

/-- The starvation scenario of the spec: every fetch succeeds but the page
holds no links at all, so no new article url is ever discovered. -/
def recPagesEmpty : String → Option RecPage := fun _ => some ⟨[], []⟩

/-- The constructor state of `CrawlerRecursive` over an empty
`already_crawled_urls.txt` file: `start_url = base_url`, nothing crawled. -/
def recStart (f : Nat) : RecState := ⟨crawlerBaseUrl, [], [], f⟩

/-- On the no-new-links input, `CrawlerRecursive.find_articles` recurses
forever: any fuel is exhausted, with one fetch attempt per nesting level. -/
lemma recFind_empty_diverges (target : Nat) :
    ∀ n f, recFind recPagesEmpty target n (recStart f) =
      (recStart (f + n), .fuelOut) := by
  intro n
  induction n with
  | zero => intro f; simp [recFind, recStart]
  | succ n ih =>
      intro f
      rw [recFind]
      simp only [recPagesEmpty, recStart, List.filter_nil, List.map_nil]
      rw [recFor.eq_def]
      have := ih (f + 1)
      simp only [recStart] at this
      simp [hasStr, extract_url, recInner, this]
      omega

/- ===================================================================
   Lab 5, part 3: HTMLParser (scrapper.py 363-443)
   =================================================================== -/

/-- Python exception kinds shared by the parser and pipeline embeddings. -/
inductive PyError where
  | typeError
  | valueError
  | attributeError
  | indexError
  | nameError
  | fileNotFoundError
  | emptyFileError
  deriving DecidableEq

/-- An article page as the parser's selectors see it.
`paragraphs`: the `.string` of each `<p>`;
`headline`: `none` when no `itemprop="headline"` element exists, otherwise
its `.string` (which can itself be `None`);
`dateAttr`: the `datetime` attribute of the `itemprop="datePublished"`
element, `none` when that element is absent;
`strongStrings`: the `.string` of each `<strong>` element in document order;
`topicStrings`: the `.string` of each tag-link found. -/
structure ParsePage where
  paragraphs : List (Option String)
  headline : Option (Option String)
  dateAttr : Option String
  strongStrings : List (Option String)
  topicStrings : List (Option String)

/-- Python `str(x)` on an optional string (`str(None) = "None"`). -/
def pyStr : Option String → String
  | some s => s
  | none => "None"

/-- `_fill_article_with_text`: join the truthy `<p>` strings with newlines. -/
def fillArticleText (pg : ParsePage) : String :=
  String.intercalate "\n" ((pg.paragraphs.filterMap id).filter (fun s => !(s == "")))

structure PyDateTime where
  year : Nat
  month : Nat
  day : Nat
  hour : Nat
  minute : Nat
  second : Nat
  deriving DecidableEq

def digit2 (a b : Char) : Option Nat :=
  if a.isDigit && b.isDigit then some ((a.toNat - 48) * 10 + (b.toNat - 48))
  else none

/-- `datetime.datetime.strptime(date_str, '%Y-%m-%d %H:%M:%S')` on the
zero-padded forms the site emits; any other shape raises ValueError
(modelled as `none`). -/
def unify_date_format (s : String) : Option PyDateTime :=
  match s.data with
  | [y1, y2, y3, y4, '-', m1, m2, '-', d1, d2, ' ',
     h1, h2, ':', n1, n2, ':', s1, s2] =>
      match digit2 y1 y2, digit2 y3 y4, digit2 m1 m2, digit2 d1 d2,
          digit2 h1 h2, digit2 n1 n2, digit2 s1 s2 with
      | some yh, some yl, some mo, some da, some ho, some mi, some se =>
          if 1 ≤ mo && mo ≤ 12 && 1 ≤ da && da ≤ 31
              && ho ≤ 23 && mi ≤ 59 && se ≤ 59 then
            some ⟨yh * 100 + yl, mo, da, ho, mi, se⟩
          else none
      | _, _, _, _, _, _, _ => none
  | _ => none

/-- The metadata `_fill_article_with_meta_information` writes to the article. -/
structure MetaInfo where
  title : String
  date : Option PyDateTime
  authors : List String
  topics : List (Option String)
  deriving DecidableEq

/-- `_fill_article_with_meta_information`, step by step in source order:
`find(itemprop="headline").string` (AttributeError when the element is
missing, `str(None)` otherwise), `find(itemprop="datePublished").attrs['datetime']`
(AttributeError when missing; parsed only when truthy),
`find_all('strong')[-1].string` (IndexError on an empty list; the sentinel
"NOT FOUND" replaces a missing or empty string), then the topic links. -/
def fillArticleMeta (pg : ParsePage) : Except PyError MetaInfo :=
  match pg.headline with
  | none => .error .attributeError
  | some hs =>
      let title := pyStr hs
      match pg.dateAttr with
      | none => .error .attributeError
      | some ds =>
          let dateStep : Except PyError (Option PyDateTime) :=
            if ds == "" then .ok none
            else
              match unify_date_format ds with
              | some dt => .ok (some dt)
              | none => .error .valueError
          match dateStep with
          | .error e => .error e
          | .ok dOpt =>
              match pg.strongStrings.getLast? with
              | none => .error .indexError
              | some lastS =>
                  let author :=
                    match lastS with
                    | none => "NOT FOUND"
                    | some s => if s == "" then "NOT FOUND" else s
                  .ok ⟨title, dOpt, [author], pg.topicStrings⟩

/-- Modelled from the spec: the Article record (core_utils.article, not
under src/) is identified by an integer id and a source url and holds the
extracted fields; all fields start out unpopulated. -/
structure ArticleRec where
  url : String
  article_id : Nat
  text : String
  title : String
  date : Option PyDateTime
  authors : List String
  topics : List (Option String)
  deriving DecidableEq

def initialArticle (url : String) (id : Nat) : ArticleRec :=
  ⟨url, id, "", "", none, [], []⟩

/-- The declared return type of `HTMLParser.parse` is
`Union[Article, bool, list]`; the non-Article variants (a failure signal)
are collapsed into one constructor. -/
inductive ParseReturn where
  | article (a : ArticleRec)
  | failSignal
  deriving DecidableEq

/-- `HTMLParser.parse`: fetch the page (`none` = non-2xx response); when ok,
fill text then metadata (exceptions propagate); finally
`return self.article` — unconditionally. -/
def html_parse (fetched : Option ParsePage) (url : String) (id : Nat) :
    Except PyError ParseReturn :=
  let a0 := initialArticle url id
  match fetched with
  | none => .ok (.article a0)
  | some pg =>
      let a1 := { a0 with text := fillArticleText pg }
      match fillArticleMeta pg with
      | .error e => .error e
      | .ok m => .ok (.article { a1 with title := m.title, date := m.date,
                                          authors := m.authors, topics := m.topics })

/- ===================================================================
   Lab 6, part 1: CorpusManager (pipeline.py 42-108)
   =================================================================== -/

inductive FileKind where
  | raw
  | meta
  | other
  deriving DecidableEq

/-- Modelled from the spec: one directory entry under the naming convention
`<id>_raw.txt` / `<id>_meta.json`; `get_article_id_from_filepath`
(core_utils, not under src/) extracts the numeric id, so entries carry
their kind and id directly; `content` is the file's bytes
(`st_size == 0` iff empty). -/
structure FileEntry where
  kind : FileKind
  id : Nat
  content : String
  deriving DecidableEq

/-- The state of `path_to_raw_txt_data` on disk. -/
inductive PathState where
  | missing
  | plainFile
  | dir (entries : List FileEntry)

/-- The exceptions `CorpusManager._validate_dataset` can raise. -/
inductive DatasetError where
  | fileNotFound
  | notADirectory
  | emptyDirectory
  | inconsistentDataset
  deriving DecidableEq

/-- Stable ascending insertion by id (Python `list.sort(key=...)`). -/
def insertById (e : FileEntry) : List FileEntry → List FileEntry
  | [] => [e]
  | f :: fs => if e.id < f.id then e :: f :: fs else f :: insertById e fs

def sortById (l : List FileEntry) : List FileEntry := l.foldr insertById []

/-- The loop `for index, (meta, raw) in enumerate(zip(metas, raws))`:
each pair's ids must equal `index + 1` and both files must be non-empty.
`i` is `index + 1`; zip truncates at the shorter list. -/
def checkPairs : Nat → List FileEntry → List FileEntry → Bool
  | _, [], _ => true
  | _, _ :: _, [] => true
  | i, m :: ms, r :: rs =>
      (m.id == i) && (r.id == i)
        && !(m.content.length == 0) && !(r.content.length == 0)
        && checkPairs (i + 1) ms rs

def isMetaEntry (e : FileEntry) : Bool := e.kind == FileKind.meta

def isRawEntry (e : FileEntry) : Bool := e.kind == FileKind.raw

/-- `CorpusManager._validate_dataset`, in source order: existence,
directory-ness, non-emptiness (`any(iterdir())`), equal glob counts,
then the sorted pairwise id/size loop. -/
def validate_dataset : PathState → Except DatasetError Unit
  | .missing => .error .fileNotFound
  | .plainFile => .error .notADirectory
  | .dir entries =>
      if entries.isEmpty then .error .emptyDirectory
      else
        let metas := entries.filter isMetaEntry
        let raws := entries.filter isRawEntry
        if !(metas.length == raws.length) then .error .inconsistentDataset
        else if checkPairs 1 (sortById metas) (sortById raws) then .ok ()
        else .error .inconsistentDataset

/-- Modelled from the spec: `from_raw` (core_utils.article.io, not under
src/) loads a raw-text file into an Article keyed by its id. -/
def articleFromRaw (e : FileEntry) : ArticleRec :=
  { initialArticle "" e.id with text := e.content }

/-- `CorpusManager._scan_dataset`: the storage dict comprehension over
`glob('*_raw.txt')`, keyed by article id. -/
def scan_dataset (entries : List FileEntry) : List (Nat × ArticleRec) :=
  (entries.filter isRawEntry).map (fun e => (e.id, articleFromRaw e))

/-- `CorpusManager.__init__`: `_validate_dataset` then `_scan_dataset`. -/
def corpus_manager_init (p : PathState) : Except DatasetError (List (Nat × ArticleRec)) :=
  match validate_dataset p with
  | .error e => .error e
  | .ok _ =>
      match p with
      | .dir entries => .ok (scan_dataset entries)
      | _ => .ok []

/-- Dict lookup on the storage association list. -/
def storageLookup : List (Nat × ArticleRec) → Nat → Option ArticleRec
  | [], _ => none
  | (k, a) :: rest, i => if k == i then some a else storageLookup rest i

/-- The claim's reading of dataset consistency, written from the spec's
words: equal counts of raw and meta files, both sorted id sequences equal
to the contiguous sequence `1..N`, and no zero-byte raw/meta file. -/
def datasetConsistentB (entries : List FileEntry) : Bool :=
  let metas := entries.filter isMetaEntry
  let raws := entries.filter isRawEntry
  (metas.length == raws.length)
    && ((sortById metas).map (fun e => e.id) == List.range' 1 metas.length)
    && ((sortById raws).map (fun e => e.id) == List.range' 1 raws.length)
    && (metas ++ raws).all (fun e => !(e.content.length == 0))

lemma insertById_perm (e : FileEntry) (l : List FileEntry) :
    (insertById e l).Perm (e :: l) := by
  induction l with
  | nil => simp [insertById]
  | cons f fs ih =>
      rw [insertById]
      by_cases hlt : e.id < f.id
      · rw [if_pos hlt]
      · rw [if_neg hlt]
        exact (List.Perm.cons f ih).trans (List.Perm.swap e f fs)

lemma sortById_perm (l : List FileEntry) : (sortById l).Perm l := by
  induction l with
  | nil => simp [sortById]
  | cons x xs ih =>
      have h1 : sortById (x :: xs) = insertById x (sortById xs) := rfl
      rw [h1]
      exact (insertById_perm x (sortById xs)).trans (List.Perm.cons x ih)

lemma sortById_length (l : List FileEntry) : (sortById l).length = l.length :=
  (sortById_perm l).length_eq

/-- Characterization of the pairwise loop for equally long lists. -/
lemma checkPairs_iff : ∀ (i : Nat) (ms rs : List FileEntry),
    ms.length = rs.length →
    (checkPairs i ms rs = true ↔
      ms.map (fun e => e.id) = List.range' i ms.length ∧
      rs.map (fun e => e.id) = List.range' i rs.length ∧
      (∀ e ∈ ms, e.content.length ≠ 0) ∧ (∀ e ∈ rs, e.content.length ≠ 0)) := by
  intro i ms
  induction ms generalizing i with
  | nil =>
      intro rs hlen
      cases rs with
      | nil => simp [checkPairs]
      | cons r rs' => simp at hlen
  | cons m ms' ih =>
      intro rs hlen
      cases rs with
      | nil => simp at hlen
      | cons r rs' =>
          simp only [List.length_cons, Nat.succ.injEq] at hlen
          rw [checkPairs]
          simp only [List.length_cons, List.range'_succ, List.map_cons,
            Bool.and_eq_true, beq_iff_eq, Bool.not_eq_true',
            beq_eq_false_iff_ne, List.cons.injEq, List.mem_cons]
          constructor
          · rintro ⟨⟨⟨⟨hm, hr⟩, hmc⟩, hrc⟩, hrest⟩
            obtain ⟨h1, h2, h3, h4⟩ := (ih (i + 1) rs' hlen).mp hrest
            refine ⟨⟨hm, h1⟩, ⟨hr, h2⟩, ?_, ?_⟩
            · rintro e (rfl | he)
              · exact hmc
              · exact h3 e he
            · rintro e (rfl | he)
              · exact hrc
              · exact h4 e he
          · rintro ⟨⟨hm, h1⟩, ⟨hr, h2⟩, h3, h4⟩
            refine ⟨⟨⟨⟨hm, hr⟩, h3 m (Or.inl rfl)⟩, h4 r (Or.inl rfl)⟩, ?_⟩
            refine (ih (i + 1) rs' hlen).mpr ⟨h1, h2, ?_, ?_⟩
            · exact fun e he => h3 e (Or.inr he)
            · exact fun e he => h4 e (Or.inr he)

/-- The consistency predicate, unfolded to a Prop with the non-emptiness
conditions transported to the *sorted* lists (sorting is a permutation). -/
lemma datasetConsistentB_iff (entries : List FileEntry) :
    datasetConsistentB entries = true ↔
      ((entries.filter isMetaEntry).length = (entries.filter isRawEntry).length ∧
        (sortById (entries.filter isMetaEntry)).map (fun e => e.id) =
          List.range' 1 (entries.filter isMetaEntry).length ∧
        (sortById (entries.filter isRawEntry)).map (fun e => e.id) =
          List.range' 1 (entries.filter isRawEntry).length ∧
        (∀ e ∈ sortById (entries.filter isMetaEntry), e.content.length ≠ 0) ∧
        (∀ e ∈ sortById (entries.filter isRawEntry), e.content.length ≠ 0)) := by
  have hpm := sortById_perm (entries.filter isMetaEntry)
  have hpr := sortById_perm (entries.filter isRawEntry)
  unfold datasetConsistentB
  simp only [Bool.and_eq_true, beq_iff_eq, List.all_append, List.all_eq_true,
    Bool.not_eq_true', beq_eq_false_iff_ne, and_assoc]
  constructor
  · rintro ⟨h1, h2, h3, h4, h5⟩
    exact ⟨h1, h2, h3,
      fun e he => h4 e (hpm.mem_iff.mp he),
      fun e he => h5 e (hpr.mem_iff.mp he)⟩
  · rintro ⟨h1, h2, h3, h4, h5⟩
    exact ⟨h1, h2, h3,
      fun e he => h4 e (hpm.mem_iff.mpr he),
      fun e he => h5 e (hpr.mem_iff.mpr he)⟩

/-- For a non-empty directory, `_validate_dataset` computes exactly the
consistency predicate: ok when it holds, InconsistentDatasetError when not. -/
lemma validate_dir_eq (entries : List FileEntry) (hne : entries.isEmpty = false) :
    validate_dataset (.dir entries) =
      (if datasetConsistentB entries = true then Except.ok ()
       else Except.error DatasetError.inconsistentDataset) := by
  have hslen0 : (sortById (entries.filter isMetaEntry)).length =
      (entries.filter isMetaEntry).length := sortById_length _
  have hslen1 : (sortById (entries.filter isRawEntry)).length =
      (entries.filter isRawEntry).length := sortById_length _
  rw [validate_dataset]
  rw [hne]
  simp only [Bool.false_eq_true, if_false]
  by_cases hlen : (entries.filter isMetaEntry).length =
      (entries.filter isRawEntry).length
  · rw [beq_iff_eq.mpr hlen]
    simp only [Bool.not_true, Bool.false_eq_true, if_false]
    have hslen : (sortById (entries.filter isMetaEntry)).length =
        (sortById (entries.filter isRawEntry)).length := by
      rw [hslen0, hslen1]; exact hlen
    have hiff := checkPairs_iff 1 (sortById (entries.filter isMetaEntry))
      (sortById (entries.filter isRawEntry)) hslen
    rw [hslen0, hslen1] at hiff
    by_cases hcp : checkPairs 1 (sortById (entries.filter isMetaEntry))
        (sortById (entries.filter isRawEntry)) = true
    · obtain ⟨h1, h2, h3, h4⟩ := hiff.mp hcp
      have hcons : datasetConsistentB entries = true :=
        (datasetConsistentB_iff entries).mpr ⟨hlen, h1, h2, h3, h4⟩
      rw [hcp, hcons]
    · have hcons : datasetConsistentB entries = false := by
        cases hb : datasetConsistentB entries with
        | false => rfl
        | true =>
            obtain ⟨_, h1, h2, h3, h4⟩ := (datasetConsistentB_iff entries).mp hb
            exact absurd (hiff.mpr ⟨h1, h2, h3, h4⟩) hcp
      rw [Bool.not_eq_true] at hcp
      rw [hcp, hcons]
  · have hcons : datasetConsistentB entries = false := by
      cases hb : datasetConsistentB entries with
      | false => rfl
      | true =>
          obtain ⟨h1, _⟩ := (datasetConsistentB_iff entries).mp hb
          exact absurd h1 hlen
    have hlenb : ((entries.filter isMetaEntry).length ==
        (entries.filter isRawEntry).length) = false := by
      exact beq_eq_false_iff_ne.mpr hlen
    rw [hlenb, hcons]
    simp

/-- On the storage list built by `_scan_dataset`, every id that has a raw
entry is looked up to the Article loaded from the first such entry. -/
lemma storageLookup_finds :
    ∀ (raws : List FileEntry) (k : Nat), (∃ e ∈ raws, e.id = k) →
      ∃ e ∈ raws, e.id = k ∧
        storageLookup (raws.map (fun e => (e.id, articleFromRaw e))) k =
          some (articleFromRaw e) := by
  intro raws
  induction raws with
  | nil => rintro k ⟨e, he, _⟩; simp at he
  | cons r rest ih =>
      rintro k ⟨e, he, hek⟩
      by_cases hr : r.id = k
      · refine ⟨r, by simp, hr, ?_⟩
        simp [storageLookup, hr]
      · rcases List.mem_cons.mp he with rfl | he'
        · exact absurd hek hr
        · obtain ⟨e', he', hk', hlook⟩ := ih k ⟨e, he', hek⟩
          refine ⟨e', by simp [he'], hk', ?_⟩
          simpa [storageLookup, beq_eq_false_iff_ne.mpr hr] using hlook

/- ===================================================================
   Lab 6, part 2: POSFrequencyPipeline (pipeline.py 254-304)
   =================================================================== -/

/-- One token of a persisted CONLL-U parse, reduced to the field
`_count_frequencies` reads: `word.to_dict()["upos"]`. -/
structure ConlluWord where
  upos : String
  deriving DecidableEq

/-- Modelled from the spec: `CoNLL.conll2doc` (stanza, external) parses
CONLL-U, a plain-text tabular format, one token per line, sentences
separated by blank lines, comment lines starting with `#`; the UPOS tag is
the fourth tab-separated column. -/
def conll2docAux : List String → List ConlluWord → List (List ConlluWord)
  | [], cur => if cur.isEmpty then [] else [cur.reverse]
  | l :: ls, cur =>
      if l == "" then
        (if cur.isEmpty then conll2docAux ls []
         else cur.reverse :: conll2docAux ls [])
      else if l.startsWith "#" then conll2docAux ls cur
      else conll2docAux ls (⟨(l.splitOn "\t").getD 3 "_"⟩ :: cur)

def conll2doc (content : String) : List (List ConlluWord) :=
  conll2docAux (content.splitOn "\n") []

/-- The dict update in `_count_frequencies`:
`if tag not in pos_freq: pos_freq[tag] = 0` then `pos_freq[tag] += 1`.
Python dicts preserve insertion order, modelled by an association list
where new keys are appended at the end. -/
def bumpPos : List (String × Nat) → String → List (String × Nat)
  | [], t => [(t, 1)]
  | (k, v) :: rest, t =>
      if k == t then (k, v + 1) :: rest else (k, v) :: bumpPos rest t

/-- `POSFrequencyPipeline._count_frequencies`: tally the UPOS of every word
of every sentence of the loaded document. -/
def count_frequencies (doc : List (List ConlluWord)) : List (String × Nat) :=
  doc.foldl (fun acc sent => sent.foldl (fun acc2 w => bumpPos acc2 w.upos) acc) []

/-- Dict lookup on the frequency mapping. -/
def lookupPos : List (String × Nat) → String → Option Nat
  | [], _ => none
  | (k, v) :: rest, t => if k == t then some v else lookupPos rest t

/-- Number of words of the document tagged `t`. -/
def uposOcc (doc : List (List ConlluWord)) (t : String) : Nat :=
  ((doc.flatten).filter (fun w => w.upos == t)).length

/-- One pipeline pass over one article's persisted CONLL-U file. -/
def pos_run_counts (content : String) : List (String × Nat) :=
  count_frequencies (conll2doc content)

/-- Two consecutive `_count_frequencies` passes over the same persisted
file: the first pass's mapping is written to the article's meta before the
second pass re-loads the file. -/
def pos_run_twice (content : String) :
    List (String × Nat) × List (String × Nat) :=
  let first := pos_run_counts content
  let second := pos_run_counts content
  (first, second)

lemma lookupPos_bump_same (acc : List (String × Nat)) (t : String) :
    lookupPos (bumpPos acc t) t = some ((lookupPos acc t).getD 0 + 1) := by
  induction acc with
  | nil => simp [bumpPos, lookupPos]
  | cons kv rest ih =>
      obtain ⟨k, v⟩ := kv
      by_cases hk : k = t
      · subst hk
        simp [bumpPos, lookupPos]
      · simp [bumpPos, lookupPos, beq_eq_false_iff_ne.mpr hk, ih]

lemma lookupPos_bump_other (acc : List (String × Nat)) (t t' : String)
    (h : t ≠ t') : lookupPos (bumpPos acc t') t = lookupPos acc t := by
  induction acc with
  | nil => simp [bumpPos, lookupPos, beq_eq_false_iff_ne.mpr (Ne.symm h)]
  | cons kv rest ih =>
      obtain ⟨k, v⟩ := kv
      by_cases hk : k = t'
      · subst hk
        simp [bumpPos, lookupPos, Ne.symm h]
      · simp only [bumpPos, beq_eq_false_iff_ne.mpr hk, Bool.false_eq_true, if_false]
        by_cases hkt : k = t
        · subst hkt
          simp [lookupPos]
        · simp [lookupPos, beq_eq_false_iff_ne.mpr hkt, ih]

/-- The fold over a flat word list, characterized through lookups. -/
lemma lookupPos_fold (t : String) :
    ∀ (ws : List ConlluWord) (acc : List (String × Nat)),
      lookupPos (ws.foldl (fun a w => bumpPos a w.upos) acc) t =
        (match lookupPos acc t with
          | some v => some (v + (ws.filter (fun w => w.upos == t)).length)
          | none =>
              if (ws.filter (fun w => w.upos == t)).length = 0 then none
              else some ((ws.filter (fun w => w.upos == t)).length)) := by
  intro ws
  induction ws with
  | nil =>
      intro acc
      cases h : lookupPos acc t with
      | none => simp [h]
      | some v => simp [h]
  | cons w ws' ih =>
      intro acc
      by_cases hw : w.upos = t
      · have hfilter : ((w :: ws').filter (fun x => x.upos == t)) =
            w :: (ws'.filter (fun x => x.upos == t)) := by
          simp [List.filter_cons, hw]
        rw [List.foldl_cons, ih, hfilter, hw]
        rw [lookupPos_bump_same]
        cases h : lookupPos acc t with
        | none => simp [h, Nat.add_comm]
        | some v =>
            simp only [h, Option.getD_some, List.length_cons]
            have : v + 1 + (ws'.filter (fun x => x.upos == t)).length =
                v + ((ws'.filter (fun x => x.upos == t)).length + 1) := by omega
            rw [this]
      · have hfilter : ((w :: ws').filter (fun x => x.upos == t)) =
            ws'.filter (fun x => x.upos == t) := by
          simp [List.filter_cons, beq_eq_false_iff_ne.mpr hw]
        rw [List.foldl_cons, ih, hfilter, lookupPos_bump_other acc t w.upos
          (fun hc => hw hc.symm)]

/-- `count_frequencies` equals the fold over the flattened document. -/
lemma count_frequencies_eq_join (doc : List (List ConlluWord)) :
    count_frequencies doc =
      (doc.flatten).foldl (fun a w => bumpPos a w.upos) [] := by
  unfold count_frequencies
  rw [List.foldl_flatten]

/-- The mapping produced by `_count_frequencies` assigns to every tag
exactly its number of occurrences (absent tags are absent). -/
lemma lookupPos_count (doc : List (List ConlluWord)) (t : String) :
    lookupPos (count_frequencies doc) t =
      (if uposOcc doc t = 0 then none else some (uposOcc doc t)) := by
  rw [count_frequencies_eq_join]
  have := lookupPos_fold t (doc.flatten) []
  rw [this]
  simp [lookupPos, uposOcc]

/- POSFrequencyPipeline.run (pipeline.py 270-285). -/

/-- `POSFrequencyPipeline.run`: iterate the corpus storage; for each
article, `stat()` its persisted Stanza CONLL-U file (FileNotFoundError when
missing), raise EmptyFileError when it is zero bytes, otherwise load the
meta, count POS frequencies, write them back and visualize (pure
bookkeeping, modelled by the returned pairs).  `files` maps an article id
to its persisted file's content, `none` when no such file exists. -/
def pos_pipeline_run (files : Nat → Option String) :
    List Nat → Except PyError (List (Nat × List (String × Nat)))
  | [] => .ok []
  | id :: rest =>
      match files id with
      | none => .error .fileNotFoundError
      | some content =>
          if content.length == 0 then .error .emptyFileError
          else
            match pos_pipeline_run files rest with
            | .ok out => .ok ((id, pos_run_counts content) :: out)
            | .error e => .error e

/- POSFrequencyPipeline.__init__ (pipeline.py 259-268). -/

/-- The names defined at module level in pipeline.py (imports, exception
classes, classes and functions), in source order. -/
def pipelineModuleNames : List String :=
  ["pathlib", "spacy_udpipe", "stanza", "GraphMatcher", "DiGraph", "Document",
   "Pipeline", "CoNLL", "Article", "ArtifactType",
   "get_article_id_from_filepath", "split_by_sentence", "from_meta",
   "from_raw", "to_cleaned", "to_meta", "ASSETS_PATH", "UDPIPE_MODEL_PATH",
   "AbstractCoNLLUAnalyzer", "CoNLLUDocument", "LibraryWrapper",
   "PipelineProtocol", "StanzaDocument", "TreeNode", "visualize",
   "InconsistentDatasetError", "EmptyDirectoryError", "EmptyFileError",
   "CorpusManager", "TextProcessingPipeline", "UDPipeAnalyzer",
   "StanzaAnalyzer", "POSFrequencyPipeline", "treenode_to_dict",
   "PatternSearchPipeline", "main"]

/-- The names in scope inside `POSFrequencyPipeline.__init__`: its
parameters plus the module-level names. -/
def posInitScope : List String :=
  "self" :: "corpus_manager" :: "analyzer" :: pipelineModuleNames

/-- `POSFrequencyPipeline.__init__`: the body assigns
`self._corpus = ucorpus_manager`; evaluating the name `ucorpus_manager`
looks it up in the enclosing scopes and raises NameError when absent. -/
def pos_frequency_pipeline_init (corpus_manager : List Nat) (analyzer : Unit) :
    Except PyError (List Nat × Unit) :=
  if hasStr posInitScope "ucorpus_manager" then .ok (corpus_manager, analyzer)
  else .error .nameError

/- ===================================================================
   Concrete sample inputs used by counterexamples and witnesses
   =================================================================== -/

/-- A configuration every field of which the validator accepts. -/
def goodConfig : ConfigDTO :=
  { seed_urls := .jlist [.jstr "https://www.sbras.info/news"]
  , total_articles := .jint 5
  , headers := .jdict []
  , encoding := .jstr "utf-8"
  , timeout := .jint 30
  , should_verify_certificate := .jbool true
  , headless_mode := .jbool false }

/-- A one-article dataset: `1_raw.txt` (non-empty) and `1_meta.json`. -/
def sampleEntries : List FileEntry :=
  [⟨.raw, 1, "Hello world."⟩, ⟨.meta, 1, "x"⟩]

/-- A page whose last `<strong>` holds the author string "A". -/
def sampleOkPage : ParsePage := ⟨[], some (some "T"), some "", [some "A"], []⟩

/-- A page with no `<strong>` element at all (no author present). -/
def sampleNoStrongPage : ParsePage := ⟨[], some (some "T"), some "", [], []⟩

/-- A page whose last `<strong>` has no usable string. -/
def sampleNoAuthorPage : ParsePage := ⟨[], some (some "T"), some "", [none], []⟩

/-- Article 1's persisted parse file is zero bytes. -/
def sampleFiles : Nat → Option String := fun n => if n == 1 then some "" else some "x"

/- ===================================================================
   Claim theorems
   =================================================================== -/

/-- C1 (counterexample): an empty directory satisfies all three conditions
of the claim (equal counts, vacuously contiguous ids, no zero-byte file),
so the claim predicts success — but the construction raises
EmptyDirectoryError, not success. -/
theorem claim_C1_counterexample :
    datasetConsistentB [] = true ∧
      corpus_manager_init (PathState.dir []) =
        Except.error DatasetError.emptyDirectory :=
  ⟨rfl, rfl⟩

/-- C1 (amended): for every existing, *non-empty* directory, construction
raises InconsistentDatasetError exactly when the raw/meta counts differ,
the sorted ids are not the contiguous sequence `1..N`, or some raw/meta
file is zero bytes; otherwise it succeeds and its storage maps each id
`1..N` to the Article loaded from the corresponding raw file.  (An empty
directory instead raises EmptyDirectoryError, and a missing path or a
non-directory raises the built-in errors.) -/
theorem claim_C1_amended :
    ∀ entries : List FileEntry, entries ≠ [] →
      ((corpus_manager_init (.dir entries) = .error .inconsistentDataset
          ↔ datasetConsistentB entries = false) ∧
        (datasetConsistentB entries = true →
          corpus_manager_init (.dir entries) = .ok (scan_dataset entries) ∧
          ∀ k, 1 ≤ k → k ≤ (entries.filter isRawEntry).length →
            ∃ e ∈ entries, isRawEntry e = true ∧ e.id = k ∧
              storageLookup (scan_dataset entries) k = some (articleFromRaw e))) := by
  intro entries hne0
  have hne : entries.isEmpty = false := by
    cases entries with
    | nil => exact absurd rfl hne0
    | cons a as => rfl
  have hval := validate_dir_eq entries hne
  constructor
  · constructor
    · intro h
      cases hb : datasetConsistentB entries with
      | false => rfl
      | true =>
          rw [hb] at hval
          simp only [if_pos] at hval
          unfold corpus_manager_init at h
          rw [hval] at h
          simp at h
    · intro hb
      rw [hb] at hval
      simp only [Bool.false_eq_true, if_false] at hval
      unfold corpus_manager_init
      rw [hval]
  · intro hb
    rw [hb] at hval
    simp only [if_pos] at hval
    constructor
    · unfold corpus_manager_init
      rw [hval]
    · intro k hk1 hk2
      obtain ⟨hlen, h1, h2, h3, h4⟩ := (datasetConsistentB_iff entries).mp hb
      have hkmem : k ∈ List.range' 1 (entries.filter isRawEntry).length := by
        rw [List.mem_range'_1]
        omega
      rw [← h2] at hkmem
      obtain ⟨e, he, hek⟩ := List.mem_map.mp hkmem
      have he' : e ∈ entries.filter isRawEntry := (sortById_perm _).mem_iff.mp he
      obtain ⟨e', hmem', hk', hlook⟩ :=
        storageLookup_finds (entries.filter isRawEntry) k ⟨e, he', hek⟩
      exact ⟨e', (List.mem_filter.mp hmem').1, (List.mem_filter.mp hmem').2,
        hk', hlook⟩

/-- C1 (witness): the spec's one-article scenario scans to a storage that
maps id 1 to the Article holding the raw text. -/
theorem claim_C1_witness :
    corpus_manager_init (.dir sampleEntries) = .ok (scan_dataset sampleEntries) ∧
    ∃ e ∈ sampleEntries, isRawEntry e = true ∧ e.id = 1 ∧
      storageLookup (scan_dataset sampleEntries) 1 = some (articleFromRaw e) := by
  have h := (claim_C1_amended sampleEntries (by decide)).2 (by decide)
  exact ⟨h.1, h.2 1 (by decide) (by decide)⟩

/-- C2 (counterexample): a configuration whose only invalid field is
`seed_urls = [5]` (a non-string seed) raises TypeError — from `re.match`
on a non-string — not IncorrectSeedURLError as the claim requires. -/
theorem claim_C2_counterexample :
    validate_config_content { goodConfig with seed_urls := .jlist [.jint 5] } =
        .error .typeError ∧
      ConfigError.typeError ≠ ConfigError.incorrectSeedURL :=
  ⟨rfl, by decide⟩

/-- C2 (amended): every valid configuration validates without error, and a
configuration with exactly one invalid field raises the error kind of that
field, with the seeds case split exactly as the code computes it: a seeds
field that is not a list raises IncorrectSeedURLError; a seed list whose
first offending element is a (non-matching) string raises
IncorrectSeedURLError — in particular every all-string invalid seed list
does; a seed list whose first offending element is not a string raises
TypeError (from `re.match`) instead.  Field validity follows Python
semantics: booleans are ints, so boolean counts/timeouts are accepted at
values 1/0, and the accepted timeout range is 0 ≤ t ≤ 60. -/
theorem claim_C2_amended :
    (∀ c : ConfigDTO, configValidB c = true →
        validate_config_content c = .ok ()) ∧
    (∀ c : ConfigDTO, validExceptSeeds c = true →
        (∀ l, c.seed_urls ≠ .jlist l) →
        validate_config_content c = .error .incorrectSeedURL) ∧
    (∀ (c : ConfigDTO) (l : List JsonVal) (v : JsonVal),
        validExceptSeeds c = true → c.seed_urls = .jlist l →
        firstBadSeed l = some v → isStrVal v = true →
        validate_config_content c = .error .incorrectSeedURL) ∧
    (∀ (c : ConfigDTO) (l : List JsonVal) (v : JsonVal),
        validExceptSeeds c = true → c.seed_urls = .jlist l →
        firstBadSeed l = some v → isStrVal v = false →
        validate_config_content c = .error .typeError) ∧
    (∀ (c : ConfigDTO) (l : List JsonVal),
        validExceptSeeds c = true → c.seed_urls = .jlist l →
        l.all isStrVal = true → seedsValidB c.seed_urls = false →
        validate_config_content c = .error .incorrectSeedURL) ∧
    (∀ c : ConfigDTO, validExceptCount c = true →
        (pyIntVal c.total_articles = none ∨
          ∃ n, pyIntVal c.total_articles = some n ∧ n ≤ 0) →
        validate_config_content c = .error .incorrectNumberOfArticles) ∧
    (∀ c : ConfigDTO, validExceptCount c = true →
        (∃ n, pyIntVal c.total_articles = some n ∧ 150 < n) →
        validate_config_content c = .error .numberOfArticlesOutOfRange) ∧
    (∀ c : ConfigDTO, validExceptHeaders c = true →
        isDictVal c.headers = false →
        validate_config_content c = .error .incorrectHeaders) ∧
    (∀ c : ConfigDTO, validExceptEncoding c = true →
        isStrVal c.encoding = false →
        validate_config_content c = .error .incorrectEncoding) ∧
    (∀ c : ConfigDTO, validExceptVerify c = true →
        (isBoolVal c.should_verify_certificate = false ∨
          isBoolVal c.headless_mode = false) →
        validate_config_content c = .error .incorrectVerify) ∧
    (∀ c : ConfigDTO, validExceptTimeout c = true →
        timeoutValidB c.timeout = false →
        validate_config_content c = .error .incorrectTimeout) := by
  refine ⟨?_, ?_, ?_, ?_, ?_, ?_, ?_, ?_, ?_, ?_, ?_⟩
  · intro c h
    simp only [configValidB, Bool.and_eq_true] at h
    obtain ⟨⟨⟨⟨⟨⟨hs, hn⟩, hh⟩, he⟩, hv⟩, hm⟩, ht⟩ := h
    rw [validate_reaches_timeout hs hn hh he hv hm]
    exact checkTimeout_of_valid ht
  · intro c hrest hnl
    refine validate_of_seeds_error ?_
    cases hsv : c.seed_urls with
    | jlist l => exact absurd hsv (hnl l)
    | jnull => rfl
    | jbool b => rfl
    | jint n => rfl
    | jstr s => rfl
    | jdict kvs => rfl
  · intro c l v hrest hl hfb hstr
    refine validate_of_seeds_error ?_
    rw [hl]
    exact checkSeeds_firstBad_str hfb hstr
  · intro c l v hrest hl hfb hstr
    refine validate_of_seeds_error ?_
    rw [hl]
    exact checkSeeds_firstBad_nonstr hfb hstr
  · intro c l hrest hl hall hbad
    rw [hl] at hbad
    simp only [seedsValidB] at hbad
    obtain ⟨v, hv⟩ := firstBadSeed_of_not_all l hbad
    have hvstr : isStrVal v = true :=
      List.all_eq_true.mp hall v (firstBadSeed_mem l v hv)
    refine validate_of_seeds_error ?_
    rw [hl]
    exact checkSeeds_firstBad_str hv hvstr
  · intro c hrest hlow
    simp only [validExceptCount, Bool.and_eq_true] at hrest
    obtain ⟨⟨⟨⟨⟨hs, hh⟩, he⟩, hv⟩, hm⟩, ht⟩ := hrest
    exact validate_of_num_error hs (checkNum_of_invalid_low hlow)
  · intro c hrest hhigh
    simp only [validExceptCount, Bool.and_eq_true] at hrest
    obtain ⟨⟨⟨⟨⟨hs, hh⟩, he⟩, hv⟩, hm⟩, ht⟩ := hrest
    obtain ⟨n, hn, hgt⟩ := hhigh
    exact validate_of_num_error hs (checkNum_of_invalid_high hn hgt)
  · intro c hrest hno
    simp only [validExceptHeaders, Bool.and_eq_true] at hrest
    obtain ⟨⟨⟨⟨⟨hs, hn⟩, he⟩, hv⟩, hm⟩, ht⟩ := hrest
    exact validate_of_headers_error hs hn (by simp [checkHeaders, hno])
  · intro c hrest hno
    simp only [validExceptEncoding, Bool.and_eq_true] at hrest
    obtain ⟨⟨⟨⟨⟨hs, hn⟩, hh⟩, hv⟩, hm⟩, ht⟩ := hrest
    exact validate_of_encoding_error hs hn hh (by simp [checkEncoding, hno])
  · intro c hrest hno
    simp only [validExceptVerify, Bool.and_eq_true] at hrest
    obtain ⟨⟨⟨⟨hs, hn⟩, hh⟩, he⟩, ht⟩ := hrest
    refine validate_of_verify_error hs hn hh he ?_
    rcases hno with h | h
    · simp [checkVerify, h]
    · simp [checkVerify, h]
  · intro c hrest hbad
    simp only [validExceptTimeout, Bool.and_eq_true] at hrest
    obtain ⟨⟨⟨⟨⟨hs, hn⟩, hh⟩, he⟩, hv⟩, hm⟩ := hrest
    rw [validate_reaches_timeout hs hn hh he hv hm]
    exact checkTimeout_of_invalid hbad

/-- C2 (witness): the all-valid configuration validates; the spec scenario
`seed_urls = ["not-a-url"]` (all-string, non-matching) raises
IncorrectSeedURLError; a non-string first offender `[5]` raises TypeError;
and mutating only the headers field raises IncorrectHeadersError. -/
theorem claim_C2_witness :
    validate_config_content goodConfig = .ok () ∧
      validate_config_content { goodConfig with seed_urls := .jlist [.jstr "not-a-url"] } =
        .error .incorrectSeedURL ∧
      validate_config_content { goodConfig with seed_urls := .jlist [.jint 5] } =
        .error .typeError ∧
      validate_config_content { goodConfig with headers := .jstr "x" } =
        .error .incorrectHeaders := by
  refine ⟨?_, ?_, ?_, ?_⟩
  · exact claim_C2_amended.1 goodConfig (by decide)
  · exact claim_C2_amended.2.2.1 _ [.jstr "not-a-url"] (.jstr "not-a-url")
      (by decide) rfl rfl rfl
  · exact claim_C2_amended.2.2.2.1 _ [.jint 5] (.jint 5)
      (by decide) rfl rfl rfl
  · exact claim_C2_amended.2.2.2.2.2.2.2.1 _ (by decide) (by decide)

/-- C3 (counterexample): the claim requires `timeout = 0` to raise
IncorrectTimeoutError, but the validator (`timeout > 60 or timeout < 0`)
accepts it. -/
theorem claim_C3_counterexample :
    validate_config_content { goodConfig with timeout := .jint 0 } = .ok () :=
  rfl

/-- C3 (amended): with the other fields valid, the validator raises
IncorrectTimeoutError exactly when the timeout is not a Python integer `t`
with 0 ≤ t ≤ 60 — both bounds inclusive, so 0 and 60 are accepted and -1
and 61 raise. -/
theorem claim_C3_amended :
    ∀ c : ConfigDTO, validExceptTimeout c = true →
      (validate_config_content c = .error .incorrectTimeout ↔
        timeoutValidB c.timeout = false) := by
  intro c hrest
  simp only [validExceptTimeout, Bool.and_eq_true] at hrest
  obtain ⟨⟨⟨⟨⟨hs, hn⟩, hh⟩, he⟩, hv⟩, hm⟩ := hrest
  rw [validate_reaches_timeout hs hn hh he hv hm]
  constructor
  · intro hval
    cases hb : timeoutValidB c.timeout with
    | false => rfl
    | true =>
        rw [checkTimeout_of_valid hb] at hval
        simp at hval
  · intro hb
    exact checkTimeout_of_invalid hb

/-- C3 (witness): timeout 61 (other fields valid) raises
IncorrectTimeoutError. -/
theorem claim_C3_witness :
    validate_config_content { goodConfig with timeout := .jint 61 } =
      .error .incorrectTimeout :=
  (claim_C3_amended _ (by decide)).mpr (by decide)

/-- C4 (counterexample): on an input where every fetched page yields no
article links (and no hrefs), `CrawlerRecursive.find_articles` with target 3
has performed 100 fetch attempts after 100 nested calls and is still
running (fuel exhausted) — there is no bound on its fetch attempts. -/
theorem claim_C4_counterexample :
    recFind recPagesEmpty 3 100 (recStart 0) = (recStart 100, RecOutcome.fuelOut) := by
  have h := recFind_empty_diverges 3 100 0
  simpa using h

/-- C4 (amended): `Crawler.find_articles` terminates (it is a total
function of the fetched pages) within at most one fetch attempt per seed
url; but `CrawlerRecursive.find_articles` does *not* terminate when every
fetched page yields no new article links: for every fuel bound it is still
running, having made one fetch attempt per nesting level. -/
theorem claim_C4_amended :
    (∀ (target : Nat) (pages : String → Option (List PageLink))
        (seeds : List String),
      (find_articles target pages seeds).fetches ≤ seeds.length) ∧
    (∀ (target n f : Nat),
      recFind recPagesEmpty target n (recStart f) =
        (recStart (f + n), RecOutcome.fuelOut)) := by
  constructor
  · intro target pages seeds
    have h := find_articles_from_fetches target pages seeds [] 0
    simpa using h
  · intro target n f
    exact recFind_empty_diverges target n f

/-- C5: after `Crawler.find_articles` completes the accumulated urls list
has no duplicates and length at most the configured target; and the
invariant is preserved by every append the inner loop performs. -/
theorem claim_C5 :
    (∀ (target : Nat) (pages : String → Option (List PageLink))
        (seeds : List String),
      (find_articles target pages seeds).urls.Nodup ∧
        (find_articles target pages seeds).urls.length ≤ target) ∧
    (∀ (target : Nat) (links : List PageLink) (urls : List String) (u : String),
      urls.Nodup → urls.length ≤ target →
      extract_url urls links = some u → urls.length ≠ target →
      ((urls ++ [u]).Nodup ∧ (urls ++ [u]).length ≤ target)) := by
  constructor
  · intro target pages seeds
    exact find_articles_from_inv target pages seeds [] 0 List.nodup_nil
      (Nat.zero_le target)
  · intro target links urls u hnd hlen hex hne
    exact crawl_append_step hnd hlen hex hne

/-- C5 (witness): a concrete append step from the empty url list keeps the
invariant at target 2. -/
theorem claim_C5_witness :
    (([] : List String) ++ [linkFullUrl ⟨true, "/news/a"⟩]).Nodup ∧
      (([] : List String) ++ [linkFullUrl ⟨true, "/news/a"⟩]).length ≤ 2 :=
  claim_C5.2 2 [⟨true, "/news/a"⟩] [] (linkFullUrl ⟨true, "/news/a"⟩)
    List.nodup_nil (by decide) rfl (by decide)

/-- C6 (counterexample): on a failed fetch, `parse` returns the Article
object — unpopulated (empty text) — rather than any failure signal. -/
theorem claim_C6_counterexample :
    html_parse none "https://www.sbras.info/news/a" 1 =
        .ok (.article (initialArticle "https://www.sbras.info/news/a" 1)) ∧
      (initialArticle "https://www.sbras.info/news/a" 1).text = "" :=
  ⟨rfl, rfl⟩

/-- C6 (amended): `parse` never returns a failure signal: on a failed
fetch it returns the Article in its initial unpopulated state, and on a
successful fetch it returns the Article populated by the extraction steps
(or propagates their exception). -/
theorem claim_C6_amended :
    (∀ (fetched : Option ParsePage) (url : String) (id : Nat),
      html_parse fetched url id ≠ .ok .failSignal) ∧
    (∀ (url : String) (id : Nat),
      html_parse none url id = .ok (.article (initialArticle url id))) ∧
    (∀ (pg : ParsePage) (url : String) (id : Nat) (m : MetaInfo),
      fillArticleMeta pg = .ok m →
      html_parse (some pg) url id =
        .ok (.article ⟨url, id, fillArticleText pg, m.title, m.date,
          m.authors, m.topics⟩)) := by
  refine ⟨?_, ?_, ?_⟩
  · intro fetched url id h
    cases fetched with
    | none => simp [html_parse] at h
    | some pg =>
        simp only [html_parse] at h
        cases hm : fillArticleMeta pg with
        | error e => rw [hm] at h; simp at h
        | ok m => rw [hm] at h; simp at h
  · intro url id
    rfl
  · intro pg url id m hm
    simp [html_parse, hm, initialArticle]

/-- C6 (witness): a successful fetch of a page with author "A" yields the
populated Article. -/
theorem claim_C6_witness :
    html_parse (some sampleOkPage) "https://www.sbras.info/news/a" 1 =
      .ok (.article ⟨"https://www.sbras.info/news/a", 1,
        fillArticleText sampleOkPage, "T", none, ["A"], []⟩) :=
  claim_C6_amended.2.2 sampleOkPage "https://www.sbras.info/news/a" 1
    ⟨"T", none, ["A"], []⟩ rfl

/-- Shape of a successful `_fill_article_with_meta_information` run. -/
lemma fillArticleMeta_ok {pg : ParsePage} {m : MetaInfo}
    (h : fillArticleMeta pg = .ok m) :
    ∃ hs lastS, pg.headline = some hs ∧
      pg.strongStrings.getLast? = some lastS ∧
      m.title = pyStr hs ∧
      m.authors = [match lastS with
        | none => "NOT FOUND"
        | some s => if s == "" then "NOT FOUND" else s] ∧
      m.topics = pg.topicStrings := by
  unfold fillArticleMeta at h
  cases hh : pg.headline with
  | none => rw [hh] at h; simp at h
  | some hs =>
      rw [hh] at h
      cases hd : pg.dateAttr with
      | none => rw [hd] at h; simp at h
      | some ds =>
          rw [hd] at h
          simp only at h
          split at h
          · simp at h
          · cases hl : pg.strongStrings.getLast? with
            | none => rw [hl] at h; simp at h
            | some lastS =>
                rw [hl] at h
                simp only [Except.ok.injEq] at h
                subst h
                exact ⟨hs, lastS, rfl, rfl, rfl, rfl, rfl⟩

/-- C7 (counterexample): on a page with no `<strong>` element at all — no
author present — metadata extraction raises IndexError
(`find_all('strong')[-1]` on an empty list) instead of setting the
sentinel, leaving the author unset. -/
theorem claim_C7_counterexample :
    fillArticleMeta sampleNoStrongPage = .error .indexError :=
  rfl

/-- C7 (amended): when the page has at least one `<strong>` element and the
last one's string is missing or empty, the author field is set to
["NOT FOUND"]; whenever metadata extraction completes, the author field is
a one-element list; but when the page has no `<strong>` element at all,
extraction raises IndexError and never completes. -/
theorem claim_C7_amended :
    (∀ (pg : ParsePage) (m : MetaInfo), fillArticleMeta pg = .ok m →
      (pg.strongStrings.getLast? = some none ∨
        pg.strongStrings.getLast? = some (some "")) →
      m.authors = ["NOT FOUND"]) ∧
    (∀ (pg : ParsePage) (m : MetaInfo), fillArticleMeta pg = .ok m →
      ∃ a, m.authors = [a]) ∧
    (∀ pg : ParsePage, pg.strongStrings = [] →
      ∀ m : MetaInfo, fillArticleMeta pg ≠ .ok m) := by
  refine ⟨?_, ?_, ?_⟩
  · intro pg m h hl
    obtain ⟨hs, lastS, hh, hlast, ht, hauth, htop⟩ := fillArticleMeta_ok h
    rcases hl with hl | hl
    · rw [hl] at hlast
      cases hlast
      simpa using hauth
    · rw [hl] at hlast
      cases hlast
      simpa using hauth
  · intro pg m h
    obtain ⟨hs, lastS, hh, hlast, ht, hauth, htop⟩ := fillArticleMeta_ok h
    exact ⟨_, hauth⟩
  · intro pg hempty m h
    obtain ⟨hs, lastS, hh, hlast, _⟩ := fillArticleMeta_ok h
    rw [hempty] at hlast
    simp at hlast

/-- C7 (witness): a page whose last `<strong>` has no usable string gets
the sentinel author list. -/
theorem claim_C7_witness :
    fillArticleMeta sampleNoAuthorPage = .ok ⟨"T", none, ["NOT FOUND"], []⟩ ∧
      (⟨"T", none, ["NOT FOUND"], []⟩ : MetaInfo).authors = ["NOT FOUND"] :=
  ⟨rfl, claim_C7_amended.1 sampleNoAuthorPage ⟨"T", none, ["NOT FOUND"], []⟩
    rfl (Or.inl rfl)⟩

/-- C8: POS-frequency counting is idempotent and deterministic — two passes
of `_count_frequencies` over the same persisted CONLL-U file yield the same
mapping, and that mapping assigns to every tag exactly its number of
occurrences in the parsed document. -/
theorem claim_C8 :
    ∀ content : String,
      (pos_run_twice content).1 = (pos_run_twice content).2 ∧
      ∀ t : String, lookupPos (pos_run_counts content) t =
        (if uposOcc (conll2doc content) t = 0 then none
         else some (uposOcc (conll2doc content) t)) := by
  intro content
  exact ⟨rfl, fun t => lookupPos_count (conll2doc content) t⟩

/-- C9: when every article's persisted CONLL-U parse file exists and some
article's file is zero bytes, `POSFrequencyPipeline.run` raises
EmptyFileError rather than skipping the article.  (The method is modelled
on its own; per C10 the class initializer itself always raises NameError.) -/
theorem claim_C9 :
    ∀ (files : Nat → Option String) (ids : List Nat),
      (∀ id ∈ ids, files id ≠ none) →
      (∃ id ∈ ids, files id = some "") →
      pos_pipeline_run files ids = .error .emptyFileError := by
  intro files ids
  induction ids with
  | nil =>
      rintro _ ⟨id, hm, _⟩
      simp at hm
  | cons i rest ih =>
      rintro hall ⟨id, hm, hempty⟩
      rw [pos_pipeline_run]
      cases hf : files i with
      | none => exact absurd hf (hall i (by simp))
      | some c =>
          by_cases hc : c = ""
          · subst hc
            simp [hf]
          · have hlen : (c.length == 0) = false := by
              rw [beq_eq_false_iff_ne]
              intro h0
              exact hc (String.ext (List.length_eq_zero.mp h0))
            simp only [hf, hlen, Bool.false_eq_true, if_false]
            have hrest : pos_pipeline_run files rest = .error .emptyFileError := by
              apply ih
              · intro j hj
                exact hall j (by simp [hj])
              · rcases List.mem_cons.mp hm with rfl | hm'
                · rw [hf] at hempty
                  cases hempty
                  exact absurd rfl hc
                · exact ⟨id, hm', hempty⟩
            rw [hrest]

/-- C9 (witness): a corpus whose only article has a zero-byte parse file
makes the run raise EmptyFileError. -/
theorem claim_C9_witness :
    pos_pipeline_run sampleFiles [1] = .error .emptyFileError :=
  claim_C9 sampleFiles [1]
    (by
      intro id hid
      simp only [List.mem_singleton] at hid
      subst hid
      simp [sampleFiles])
    ⟨1, by simp, by simp [sampleFiles]⟩

/-- C10: for every pair of arguments, constructing POSFrequencyPipeline
raises NameError, because its initializer reads the name
`ucorpus_manager`, which is in no enclosing scope; hence no instance can
ever be created through the public interface. -/
theorem claim_C10 :
    ∀ (cm : List Nat) (an : Unit),
      pos_frequency_pipeline_init cm an = .error .nameError := by
  intro cm an
  have h : hasStr posInitScope "ucorpus_manager" = false := by decide
  simp [pos_frequency_pipeline_init, h]

end Ctlr
